import Mathlib

/-!
Verification of the Break & Retest trading scanner
(`src/backend/src/scanner/`) against its natural-language specification.

The detector (`break_retest.py`), the scanner service (`service.py`), the
scheduler (`scheduler.py`) and the auto-scanner router endpoints
(`router.py`) are shallowly embedded below.  Python floats are modelled by
`ℚ`, pandas `DataFrame`s of OHLCV rows by `List Candle` (the pandas index,
a timestamp, is the `time` field), and the SQL store by lists of records.
-/

namespace TradingScanner

/-- One OHLCV candle (a row of the pandas DataFrame; `time` is the index
value, `opn` models the `open` column, which is a reserved word in Lean). -/
structure Candle where
  time : ℤ
  opn : ℚ
  high : ℚ
  low : ℚ
  close : ℚ
  volume : ℚ
deriving DecidableEq, Repr

/-- Configuration of `BreakRetestDetector.__init__`. -/
structure Detector where
  pivot_lookback : ℕ
  level_tolerance_pct : ℚ
  min_touches : ℕ
  retest_tolerance_pct : ℚ
  min_breakout_pct : ℚ
  max_retest_candles : ℕ
deriving DecidableEq, Repr

/-- `create_detector`: the three named sensitivity presets; unknown keys
fall back to `"medium"` (`configs.get(sensitivity, configs["medium"])`). -/
def create_detector (sensitivity : String) : Detector :=
  if sensitivity = "low" then
    ⟨15, 2/10, 3, 3/10, 8/10, 30⟩
  else if sensitivity = "medium" then
    ⟨10, 3/10, 2, 5/10, 5/10, 50⟩
  else if sensitivity = "high" then
    ⟨5, 5/10, 2, 8/10, 3/10, 80⟩
  else
    ⟨10, 3/10, 2, 5/10, 5/10, 50⟩

/-- `PatternType` enum. -/
inductive PatternType where
  | bullish_retest
  | bearish_retest
deriving DecidableEq, Repr

/-- `PatternType.value` (the enum's string payload). -/
def PatternType.value : PatternType → String
  | .bullish_retest => "bullish_retest"
  | .bearish_retest => "bearish_retest"

/-- A support/resistance `Level` (the dataclass in `break_retest.py`).
`is_broken`, `break_direction`, `break_time` keep their dataclass defaults
and are never written by the scanner code. -/
structure Level where
  price : ℚ
  strength : ℕ
  first_touch : ℤ
  last_touch : ℤ
  is_broken : Bool := false
  break_direction : Option String := none
  break_time : Option ℤ := none
deriving DecidableEq, Repr

/-- A detected `Signal` (the dataclass in `break_retest.py`).  The
human-readable `message` string is presentation only (an f-string of the
other fields) and is not modelled. -/
structure Signal where
  symbol : String
  timeframe : String
  pattern_type : PatternType
  level_price : ℚ
  current_price : ℚ
  distance_to_level_pct : ℚ
  timestamp : ℤ
  strength : ℕ
deriving DecidableEq, Repr

/-- The inner loop of `find_pivot_highs`: candle `i` is kept iff
`highs[i] > highs[i-j]` and `highs[i] > highs[i+j]` for every
`j in range(1, lookback+1)` (the python code breaks on
`highs[i] <= highs[i-j] or highs[i] <= highs[i+j]`). -/
def isPivotHighAt (lookback : ℕ) (highs : List ℚ) (i : ℕ) : Bool :=
  (List.range' 1 lookback).all fun j =>
    decide (highs.getD (i - j) 0 < highs.getD i 0) &&
    decide (highs.getD (i + j) 0 < highs.getD i 0)

/-- The inner loop of `find_pivot_lows` (strict mirror on lows). -/
def isPivotLowAt (lookback : ℕ) (lows : List ℚ) (i : ℕ) : Bool :=
  (List.range' 1 lookback).all fun j =>
    decide (lows.getD i 0 < lows.getD (i - j) 0) &&
    decide (lows.getD i 0 < lows.getD (i + j) 0)

/-- `find_pivot_highs(df)`: the indices `i in range(lookback, n - lookback)`
flagged as pivot highs (the python code stores the values in a sparse
Series; the flagged index set is what it carries). -/
def find_pivot_highs (lookback : ℕ) (highs : List ℚ) : List ℕ :=
  (List.range' lookback (highs.length - lookback - lookback)).filter
    (isPivotHighAt lookback highs)

/-- `find_pivot_lows(df)`: the flagged pivot-low indices. -/
def find_pivot_lows (lookback : ℕ) (lows : List ℚ) : List ℕ :=
  (List.range' lookback (lows.length - lookback - lookback)).filter
    (isPivotLowAt lookback lows)

/-- `diff_pct = abs(prices[j] - price) / price * 100` from
`cluster_levels`. -/
def pctDiff (seed p : ℚ) : ℚ := |p - seed| / seed * 100

/-- Build the `Level` of one cluster: `price` is `np.mean` of the member
prices, `strength` the member count, `first_touch`/`last_touch` the
min/max member timestamp.  The seed pivot is passed separately so the
cluster is nonempty by construction. -/
def mkLevel (seed : ℚ × ℤ) (members : List (ℚ × ℤ)) : Level :=
  let prices := seed.1 :: members.map Prod.fst
  let times := seed.2 :: members.map Prod.snd
  { price := prices.sum / (prices.length : ℚ)
    strength := prices.length
    first_touch := times.foldl min seed.2
    last_touch := times.foldl max seed.2 }

/-- The greedy pass of `cluster_levels`: the first unused pivot seeds a
cluster that absorbs every later unused pivot within
`level_tolerance_pct` of the seed price; a cluster is emitted only when
it has at least `min_touches` members. -/
def clusterGo (tol : ℚ) (min_touches : ℕ) : List (ℚ × ℤ) → List Level
  | [] => []
  | seed :: rest =>
    let inCluster := rest.filter fun q => decide (pctDiff seed.1 q.1 ≤ tol)
    let out := rest.filter fun q => !decide (pctDiff seed.1 q.1 ≤ tol)
    if min_touches ≤ (seed :: inCluster).length then
      mkLevel seed inCluster :: clusterGo tol min_touches out
    else
      clusterGo tol min_touches out
termination_by l => l.length
decreasing_by
  all_goals exact Nat.lt_succ_of_le (List.length_filter_le _ _)

/-- Relation used by python's `sorted(levels, key=lambda x: x.price)`. -/
def Level.priceLE (a b : Level) : Prop := a.price ≤ b.price

instance : DecidableRel Level.priceLE := fun x y => inferInstanceAs (Decidable (x.price ≤ y.price))

instance : IsTotal Level Level.priceLE := ⟨fun a b => le_total a.price b.price⟩

instance : IsTrans Level Level.priceLE := ⟨fun _ _ _ h h2 => le_trans h h2⟩

/-- `cluster_levels(prices, timestamps)`: the greedy pass followed by the
final stable ascending sort by price.  The two parallel python lists are
passed as one list of (price, timestamp) pivots. -/
def cluster_levels (tol : ℚ) (min_touches : ℕ) (pivots : List (ℚ × ℤ)) : List Level :=
  (clusterGo tol min_touches pivots).insertionSort Level.priceLE

/-- `identify_levels(df)`: pivot highs clustered into resistances, pivot
lows into supports (`dropna` yields the flagged values with their
timestamps in index order). -/
def identify_levels (d : Detector) (df : List Candle) : List Level × List Level :=
  let highs := df.map Candle.high
  let lows := df.map Candle.low
  let times := df.map Candle.time
  let highPivots := (find_pivot_highs d.pivot_lookback highs).map
    fun i => (highs.getD i 0, times.getD i 0)
  let lowPivots := (find_pivot_lows d.pivot_lookback lows).map
    fun i => (lows.getD i 0, times.getD i 0)
  (cluster_levels d.level_tolerance_pct d.min_touches highPivots,
   cluster_levels d.level_tolerance_pct d.min_touches lowPivots)

/-- `df.iloc[max(0, i-5):i]['close']`: the up-to-five closes preceding
index `i`. -/
def prevCloses (closes : List ℚ) (i : ℕ) : List ℚ :=
  (closes.take i).drop (i - 5)

/-- The breakout test of `check_breakout` at index `i`: for a resistance,
`close[i] > level * (1 + min_breakout_pct/100)` and the preceding window
is nonempty with mean close below the level; mirrored for a support. -/
def breakoutCond (d : Detector) (df : List Candle) (level : ℚ)
    (is_resistance : Bool) (i : ℕ) : Bool :=
  let closes := df.map Candle.close
  let c := closes.getD i 0
  let prev := prevCloses closes i
  if is_resistance then
    decide (level * (1 + d.min_breakout_pct / 100) < c) &&
    (decide (0 < prev.length) && decide (prev.sum / (prev.length : ℚ) < level))
  else
    decide (c < level * (1 - d.min_breakout_pct / 100)) &&
    (decide (0 < prev.length) && decide (level < prev.sum / (prev.length : ℚ)))

/-- `check_breakout(df, level, is_resistance)`: python iterates
`for i in range(len(df) - 1, max(0, len(df) - max_retest_candles), -1)`
(the stop bound is exclusive) and returns the first, i.e. most recent,
index whose breakout test holds, else `None`.  The descending iteration
is the reverse of `range'(stop+1, n-1-stop)`. -/
def check_breakout (d : Detector) (df : List Candle) (level : ℚ)
    (is_resistance : Bool) : Option ℕ :=
  let n := df.length
  let stop := n - d.max_retest_candles
  ((List.range' (stop + 1) (n - 1 - stop)).reverse).find?
    (breakoutCond d df level is_resistance)

/-- `check_retest(df, level, breakout_idx, is_bullish)`.  The guard
`breakout_idx >= len(df) - 1` is the integer comparison of the python
code, rendered over `ℕ` as `len(df) ≤ breakout_idx + 1` (equivalent for
all `len(df) ≥ 0`).  `post_breakout['high'].max()` is evaluated through
`List.max?`; past the guard `df.drop breakout_idx` is nonempty, matching
python, where `.max()` of the nonempty slice is always defined. -/
def check_retest (d : Detector) (df : List Candle) (level : ℚ)
    (breakout_idx : ℕ) (is_bullish : Bool) : Bool :=
  if df.length ≤ breakout_idx + 1 then false
  else
    let current_price := (df.map Candle.close).getLastD 0
    let current_low := (df.map Candle.low).getLastD 0
    let current_high := (df.map Candle.high).getLastD 0
    let post := df.drop breakout_idx
    if is_bullish then
      let touching :=
        decide (current_low ≤ level * (1 + d.retest_tolerance_pct / 100)) &&
        decide (level * (1 - d.retest_tolerance_pct / 100) ≤ current_price)
      let went_higher :=
        match (post.map Candle.high).max? with
        | some m => decide (level * (1 + d.min_breakout_pct / 100) < m)
        | none => false
      touching && went_higher
    else
      let touching :=
        decide (level * (1 - d.retest_tolerance_pct / 100) ≤ current_high) &&
        decide (current_price ≤ level * (1 + d.retest_tolerance_pct / 100))
      let went_lower :=
        match (post.map Candle.low).min? with
        | some m => decide (m < level * (1 - d.min_breakout_pct / 100))
        | none => false
      touching && went_lower

/-- `detect(df, symbol, timeframe)`: the length guard, then one
bullish-retest pass over the resistances followed by a bearish-retest
pass over the supports, appending a `Signal` for each level whose
breakout has a confirmed retest. -/
def detect (d : Detector) (df : List Candle) (symbol timeframe : String) :
    List Signal :=
  if df.length < d.pivot_lookback * 2 + d.max_retest_candles then []
  else
    let levels := identify_levels d df
    let current_price := (df.map Candle.close).getLastD 0
    let current_time := (df.map Candle.time).getLastD 0
    let bullish := levels.1.filterMap fun resistance =>
      match check_breakout d df resistance.price true with
      | some bi =>
        if check_retest d df resistance.price bi true then
          some { symbol := symbol
                 timeframe := timeframe
                 pattern_type := PatternType.bullish_retest
                 level_price := resistance.price
                 current_price := current_price
                 distance_to_level_pct :=
                   (current_price - resistance.price) / resistance.price * 100
                 timestamp := current_time
                 strength := resistance.strength }
        else none
      | none => none
    let bearish := levels.2.filterMap fun support =>
      match check_breakout d df support.price false with
      | some bi =>
        if check_retest d df support.price bi false then
          some { symbol := symbol
                 timeframe := timeframe
                 pattern_type := PatternType.bearish_retest
                 level_price := support.price
                 current_price := current_price
                 distance_to_level_pct :=
                   (current_price - support.price) / support.price * 100
                 timestamp := current_time
                 strength := support.strength }
        else none
      | none => none
    bullish ++ bearish

/-! ## Scanner service (`service.py`) -/

/-- `ScannerService.DUPLICATE_WINDOW_HOURS`. -/
def DUPLICATE_WINDOW_HOURS : ℚ := 24

/-- `ScannerService.PRICE_TOLERANCE` (0.5% = 0.005). -/
def PRICE_TOLERANCE : ℚ := 5 / 1000

/-- A persisted `ScanResult` row.  `id` is the primary key chosen by the
database, `created_at` the insertion timestamp; times are modelled in
hours as rationals. -/
structure ScanResultRec where
  id : ℕ
  user_id : ℕ
  symbol : String
  timeframe : String
  pattern_type : String
  level_price : ℚ
  current_price : ℚ
  confidence_score : ℚ
  is_match : Bool
  created_at : ℚ
deriving DecidableEq, Repr

/-- `ScannerService._signal_exists`: counts the stored rows matching the
(user, symbol, timeframe, pattern_type) key whose `level_price` lies in
`[level_price*(1-PRICE_TOLERANCE), level_price*(1+PRICE_TOLERANCE)]` and
whose `created_at` is at least `now - DUPLICATE_WINDOW_HOURS`, and
returns `count > 0`. -/
def signal_exists (store : List ScanResultRec) (now : ℚ) (user_id : ℕ)
    (symbol timeframe pattern_type : String) (level_price : ℚ) : Bool :=
  let cutoff := now - DUPLICATE_WINDOW_HOURS
  let price_low := level_price * (1 - PRICE_TOLERANCE)
  let price_high := level_price * (1 + PRICE_TOLERANCE)
  decide (0 < (store.filter fun r =>
    decide (r.user_id = user_id ∧ r.symbol = symbol ∧ r.timeframe = timeframe ∧
      r.pattern_type = pattern_type ∧ price_low ≤ r.level_price ∧
      r.level_price ≤ price_high ∧ cutoff ≤ r.created_at)).length)

/-- Python's `round(x, 2)` on the decimal value: round to the nearest
multiple of `1/100`, ties to the even multiple. -/
def round2 (q : ℚ) : ℚ :=
  let s := q * 100
  let f : ℤ := ⌊s⌋
  (if s - (f : ℚ) = 1/2 then (if f % 2 = 0 then f else f + 1) else ⌊s + 1/2⌋ : ℤ) / 100

/-- The dedup key of `clear_duplicate_signals`:
`(symbol, timeframe, pattern_type, round(level_price, 2))`. -/
def dupKey (r : ScanResultRec) : String × String × String × ℚ :=
  (r.symbol, r.timeframe, r.pattern_type, round2 r.level_price)

/-- The `seen` loop of `clear_duplicate_signals`: walking the
time-ordered signals, the id of every signal whose key was already seen
is marked for deletion. -/
def findDups (seen : List (String × String × String × ℚ)) :
    List ScanResultRec → List ℕ
  | [] => []
  | r :: rest =>
    if dupKey r ∈ seen then r.id :: findDups seen rest
    else findDups (dupKey r :: seen) rest

/-- Relation used to model `order_by(ScanResult.created_at.asc())` (a
stable ascending sort of the stored rows). -/
def ScanResultRec.createdLE (a b : ScanResultRec) : Prop :=
  a.created_at ≤ b.created_at

instance : DecidableRel ScanResultRec.createdLE :=
  fun x y => inferInstanceAs (Decidable (x.created_at ≤ y.created_at))

instance : IsTotal ScanResultRec ScanResultRec.createdLE :=
  ⟨fun a b => le_total a.created_at b.created_at⟩

instance : IsTrans ScanResultRec ScanResultRec.createdLE :=
  ⟨fun _ _ _ h h2 => le_trans h h2⟩

/-- `ScannerService.clear_duplicate_signals(user_id)`: fetch the user's
signals ordered by `created_at` ascending, mark every signal whose
`(symbol, timeframe, pattern_type, round(level_price,2))` key repeats,
delete the marked ids from the table, and return how many were marked.
Returns the table after deletion together with the count. -/
def clear_duplicate_signals (store : List ScanResultRec) (user_id : ℕ) :
    List ScanResultRec × ℕ :=
  let all_signals :=
    (store.filter fun r => decide (r.user_id = user_id)).insertionSort
      ScanResultRec.createdLE
  let duplicates_to_delete := findDups [] all_signals
  (store.filter fun r => !decide (r.id ∈ duplicates_to_delete),
   duplicates_to_delete.length)

/-- A `WatchlistItem` row (external input of the scanner). -/
structure WatchlistItem where
  user_id : ℕ
  symbol : String
  timeframes : List String
  is_active : Bool
deriving DecidableEq, Repr

/-- A `ScanExecution` audit row. -/
structure ExecutionRec where
  user_id : ℕ
  symbols_scanned : ℕ
  signals_found : ℕ
  sensitivity : String
  created_at : ℚ
deriving DecidableEq, Repr

/-- The persistent store visible to `ScannerService`: the watchlist, the
`scan_results` table, the `scan_executions` table, and the next primary
key the database will assign. -/
structure DB where
  watchlist : List WatchlistItem
  scan_results : List ScanResultRec
  executions : List ExecutionRec
  next_id : ℕ
deriving DecidableEq, Repr

/-- The watchlist query of `run_scan`: the user's active items, further
restricted to `[s.upper() for s in symbols]` when a nonempty symbol list
is supplied (python's `if symbols:` is false for both `None` and `[]`). -/
def activeWatchlist (db : DB) (user_id : ℕ) (symbols : Option (List String)) :
    List WatchlistItem :=
  let base := db.watchlist.filter fun w =>
    decide (w.user_id = user_id) && w.is_active
  match symbols with
  | none => base
  | some ss =>
    if ss.isEmpty then base
    else base.filter fun w => (ss.map String.toUpper).contains w.symbol

/-- State threaded through the scan loops of `run_scan`: the results
returned so far, the `scan_results` table as the session sees it
(pending inserts are visible to the duplicate check, as with
SQLAlchemy's autoflush), and the next primary key. -/
structure ScanAcc where
  results : List ScanResultRec
  store : List ScanResultRec
  next_id : ℕ

/-- The per-signal body of `run_scan`: skip the signal when
`_signal_exists` says a similar one is already stored, otherwise insert
a new `ScanResult` row (`confidence_score = strength / 10`). -/
def scanSignalStep (now : ℚ) (user_id : ℕ) (acc : ScanAcc) (sig : Signal) :
    ScanAcc :=
  if signal_exists acc.store now user_id sig.symbol sig.timeframe
      sig.pattern_type.value sig.level_price then acc
  else
    let r : ScanResultRec :=
      { id := acc.next_id
        user_id := user_id
        symbol := sig.symbol
        timeframe := sig.timeframe
        pattern_type := sig.pattern_type.value
        level_price := sig.level_price
        current_price := sig.current_price
        confidence_score := (sig.strength : ℚ) / 10
        is_match := true
        created_at := now }
    ⟨acc.results ++ [r], acc.store ++ [r], acc.next_id + 1⟩

/-- The per-(symbol, timeframe) body of `run_scan`: fetch candles from
the provider (`none` models a raised exception, skipped by the
`try/except`), run `detect`, and fold the duplicate-check-then-insert
step over the detected signals. -/
def scanPairStep (d : Detector) (provider : String → String → Option (List Candle))
    (now : ℚ) (user_id : ℕ) (symbol : String) (acc : ScanAcc) (tf : String) :
    ScanAcc :=
  match provider symbol tf with
  | none => acc
  | some df => (detect d df symbol tf).foldl (scanSignalStep now user_id) acc

/-- `ScannerService.run_scan(user_id, symbols, timeframes, sensitivity)`:
build the detector for the sensitivity, query the filtered active
watchlist, return immediately when it is empty, otherwise scan every
(item, timeframe) pair (caller timeframes override the item's when a
nonempty list is given), then record one `ScanExecution` and commit.
Returns the inserted rows and the updated store. -/
def run_scan (db : DB) (provider : String → String → Option (List Candle))
    (now : ℚ) (user_id : ℕ) (symbols timeframes : Option (List String))
    (sensitivity : String) : List ScanResultRec × DB :=
  let d := create_detector sensitivity
  let watchlist := activeWatchlist db user_id symbols
  if watchlist.isEmpty then ([], db)
  else
    let acc := watchlist.foldl (fun (acc : ScanAcc) item =>
      let tfs := match timeframes with
        | none => item.timeframes
        | some ts => if ts.isEmpty then item.timeframes else ts
      tfs.foldl (scanPairStep d provider now user_id item.symbol) acc)
      ⟨[], db.scan_results, db.next_id⟩
    let execution : ExecutionRec :=
      { user_id := user_id
        symbols_scanned := watchlist.length
        signals_found := acc.results.length
        sensitivity := sensitivity
        created_at := now }
    (acc.results,
     { db with scan_results := acc.store
               executions := db.executions ++ [execution]
               next_id := acc.next_id })

/-! ## Scheduler (`scheduler.py`) and auto-scanner endpoints (`router.py`) -/

/-- The signal mailbox `ScannerScheduler.new_signals`
(`Dict[int, List[dict]]`), modelled as a total map defaulting to the
empty list — exactly the view `dict.pop(user_id, [])` gives. -/
def SignalQueue (α : Type) := ℕ → List α

/-- `ScannerScheduler.get_new_signals(user_id)`: atomically pop the
user's pending signals, returning them and the mailbox with that user's
queue emptied. -/
def get_new_signals {α : Type} (q : SignalQueue α) (user_id : ℕ) :
    List α × SignalQueue α :=
  (q user_id, fun u => if u = user_id then [] else q u)

/-- The mutable fields of `ScannerScheduler` that `start`/`stop`/
`get_status` read and write. -/
structure SchedulerState where
  is_running : Bool
  interval_minutes : ℤ
  last_scan_time : Option ℤ
deriving DecidableEq, Repr

/-- `ScannerScheduler.__init__`. -/
def schedInit : SchedulerState :=
  { is_running := false, interval_minutes := 5, last_scan_time := none }

/-- `ScannerScheduler.start(interval_minutes)`: no-op when already
running, otherwise store the interval, register the job and mark
running. -/
def schedStart (s : SchedulerState) (interval_minutes : ℤ) : SchedulerState :=
  if s.is_running then s
  else { s with interval_minutes := interval_minutes, is_running := true }

/-- `ScannerScheduler.stop()`: no-op when not running, otherwise remove
the job and mark stopped. -/
def schedStop (s : SchedulerState) : SchedulerState :=
  if !s.is_running then s
  else { s with is_running := false }

/-- `ScannerScheduler.get_status()`. -/
def schedStatus (s : SchedulerState) : Bool × ℤ × Option ℤ :=
  (s.is_running, s.interval_minutes, s.last_scan_time)

/-- The `POST /auto/start` endpoint: clamp the requested interval to
`[1, 60]` (`max(1, min(60, request.interval_minutes))`) and start the
scheduler with it. -/
def start_auto_scanner (s : SchedulerState) (interval_minutes : ℤ) :
    SchedulerState :=
  schedStart s (max 1 (min 60 interval_minutes))

/-! ## Claims -/

/-- Claim C1: for every candle series with fewer than
`2·pivot_lookback + max_retest_candles` candles, `detect(df, symbol,
timeframe)` returns an empty sequence of signals, for every symbol and
timeframe. -/
theorem claim_C1 (d : Detector) (df : List Candle) (symbol timeframe : String)
    (h : df.length < d.pivot_lookback * 2 + d.max_retest_candles) :
    detect d df symbol timeframe = [] := by
  unfold detect
  rw [if_pos h]

theorem claim_C1_witness :
    detect (create_detector "medium") [] "BTCUSDT" "1h" = [] :=
  claim_C1 (create_detector "medium") [] "BTCUSDT" "1h" (by decide)

/-- Claim C2: for every candle series and lookback ≥ 1, `find_pivot_highs`
flags index `i` iff `lookback ≤ i < n - lookback` (rendered over `ℕ` as
`lookback ≤ i ∧ i + lookback < n`) and `high[i]` is strictly greater than
`high[i-j]` and `high[i+j]` for every `j ∈ [1, lookback]`;
`find_pivot_lows` is the strict-less-than mirror on lows; and any series
shorter than `2·lookback + 1` yields no pivots. -/
theorem claim_C2 (lookback : ℕ) (highs lows : List ℚ) (i : ℕ)
    (hlb : 1 ≤ lookback) :
    (i ∈ find_pivot_highs lookback highs ↔
      lookback ≤ i ∧ i + lookback < highs.length ∧
      ∀ j, 1 ≤ j → j ≤ lookback →
        highs.getD (i - j) 0 < highs.getD i 0 ∧
        highs.getD (i + j) 0 < highs.getD i 0) ∧
    (i ∈ find_pivot_lows lookback lows ↔
      lookback ≤ i ∧ i + lookback < lows.length ∧
      ∀ j, 1 ≤ j → j ≤ lookback →
        lows.getD i 0 < lows.getD (i - j) 0 ∧
        lows.getD i 0 < lows.getD (i + j) 0) ∧
    (highs.length < 2 * lookback + 1 → find_pivot_highs lookback highs = []) ∧
    (lows.length < 2 * lookback + 1 → find_pivot_lows lookback lows = []) := by
  refine ⟨?_, ?_, ?_, ?_⟩
  · simp only [find_pivot_highs, List.mem_filter, List.mem_range'_1,
      isPivotHighAt, List.all_eq_true, Bool.and_eq_true, decide_eq_true_eq]
    constructor
    · rintro ⟨⟨h1, h2⟩, h3⟩
      exact ⟨h1, by omega, fun j hj1 hj2 => h3 j ⟨hj1, by omega⟩⟩
    · rintro ⟨h1, h2, h3⟩
      exact ⟨⟨h1, by omega⟩, fun j hj => h3 j hj.1 (by omega)⟩
  · simp only [find_pivot_lows, List.mem_filter, List.mem_range'_1,
      isPivotLowAt, List.all_eq_true, Bool.and_eq_true, decide_eq_true_eq]
    constructor
    · rintro ⟨⟨h1, h2⟩, h3⟩
      exact ⟨h1, by omega, fun j hj1 hj2 => h3 j ⟨hj1, by omega⟩⟩
    · rintro ⟨h1, h2, h3⟩
      exact ⟨⟨h1, by omega⟩, fun j hj => h3 j hj.1 (by omega)⟩
  · intro h
    have : highs.length - lookback - lookback = 0 := by omega
    simp [find_pivot_highs, this]
  · intro h
    have : lows.length - lookback - lookback = 0 := by omega
    simp [find_pivot_lows, this]

theorem claim_C2_witness :
    1 ∈ find_pivot_highs 1 [0, 5, 0] ∧ 1 ∈ find_pivot_lows 1 [1, 0, 1] := by
  constructor
  · refine (claim_C2 1 [0, 5, 0] [1, 0, 1] 1 le_rfl).1.mpr
      ⟨le_rfl, by norm_num, fun j hj1 hj2 => ?_⟩
    have hj : j = 1 := le_antisymm hj2 hj1
    subst hj
    norm_num
  · refine (claim_C2 1 [0, 5, 0] [1, 0, 1] 1 le_rfl).2.1.mpr
      ⟨le_rfl, by norm_num, fun j hj1 hj2 => ?_⟩
    have hj : j = 1 := le_antisymm hj2 hj1
    subst hj
    norm_num

/-- The breakout condition exactly as claim C3 words it: for a
resistance, `close[i] > level·(1 + min_breakout_pct/100)` and the mean
close of the up-to-5 preceding candles is below the level (mirrored for
a support).  Written as a `Prop` for comparison with the code's
`breakoutCond`; the two agree at every index with at least one
preceding candle. -/
def specBreakoutCond (d : Detector) (df : List Candle) (level : ℚ)
    (is_resistance : Bool) (i : ℕ) : Prop :=
  let closes := df.map Candle.close
  let prev := prevCloses closes i
  if is_resistance then
    level * (1 + d.min_breakout_pct / 100) < closes.getD i 0 ∧
    prev.sum / (prev.length : ℚ) < level
  else
    closes.getD i 0 < level * (1 - d.min_breakout_pct / 100) ∧
    level < prev.sum / (prev.length : ℚ)

instance (d : Detector) (df : List Candle) (level : ℚ)
    (is_resistance : Bool) (i : ℕ) :
    Decidable (specBreakoutCond d df level is_resistance i) := by
  unfold specBreakoutCond
  infer_instance

/-- The scan claim C3 describes, transcribed from its words: look at the
most recent `max_retest_candles` candles (indices `i ≥ n -
max_retest_candles`), newest first, and return the first index whose
breakout condition holds.  Kept separate from `check_breakout` so the
two windows can be compared. -/
def specCheckBreakout (d : Detector) (df : List Candle) (level : ℚ)
    (is_resistance : Bool) : Option ℕ :=
  let n := df.length
  let lo := n - d.max_retest_candles
  ((List.range' lo (n - lo)).reverse).find? fun i =>
    decide (specBreakoutCond d df level is_resistance i)

/-- `find?` over a reversed `range'` returns the greatest element of the
range satisfying the predicate. -/
lemma find?_reverse_range' (p : ℕ → Bool) (a b i : ℕ) :
    (List.range' a b).reverse.find? p = some i ↔
      a ≤ i ∧ i < a + b ∧ p i = true ∧
        ∀ j, i < j → j < a + b → p j = false := by
  induction b with
  | zero =>
    simp only [List.range'_zero, List.reverse_nil, List.find?_nil]
    constructor
    · intro h
      exact absurd h (by simp)
    · rintro ⟨h1, h2, -⟩
      omega
  | succ b ih =>
    rw [List.range'_concat, List.reverse_append]
    simp only [List.reverse_cons, List.reverse_nil, List.nil_append,
      List.cons_append, List.find?_cons, one_mul]
    cases hp : p (a + b) with
    | true =>
      simp only [List.nil_append]
      constructor
      · intro h
        have hi : i = a + b := by
          cases h
          rfl
        subst hi
        exact ⟨by omega, by omega, hp, fun j hj1 hj2 => by omega⟩
      · rintro ⟨h1, h2, h3, h4⟩
        have hi : i = a + b := by
          by_contra hne
          have hib : i < a + b := by omega
          have := h4 (a + b) hib (by omega)
          rw [hp] at this
          exact absurd this (by simp)
        subst hi
        rfl
    | false =>
      simp only [List.nil_append]
      rw [ih]
      constructor
      · rintro ⟨h1, h2, h3, h4⟩
        refine ⟨h1, by omega, h3, fun j hj1 hj2 => ?_⟩
        rcases Nat.lt_or_ge j (a + b) with hj | hj
        · exact h4 j hj1 hj
        · have : j = a + b := by omega
          subst this
          exact hp
      · rintro ⟨h1, h2, h3, h4⟩
        have hi : i ≠ a + b := by
          rintro rfl
          rw [hp] at h3
          exact absurd h3 (by simp)
        exact ⟨h1, by omega, h3, fun j hj1 hj2 => h4 j hj1 (by omega)⟩

/-- Claim C3, corrected: the backward scan of `check_breakout` covers
only the indices `i` with `max(0, n - max_retest_candles) < i ≤ n - 1`
(the python `range` stop bound is exclusive, so the oldest candle of the
claimed window is never examined); within that window it returns the
most recent index satisfying the breakout condition, and `None` when no
scanned index satisfies it.  On every index with at least one preceding
candle — in particular every scanned index — the code's breakout test
coincides with the condition exactly as the claim words it
(`specBreakoutCond`). -/
theorem claim_C3 (d : Detector) (df : List Candle) (level : ℚ)
    (is_resistance : Bool) :
    (∀ i, check_breakout d df level is_resistance = some i ↔
      (df.length - d.max_retest_candles < i ∧ i < df.length ∧
        breakoutCond d df level is_resistance i = true ∧
        ∀ j, i < j → j < df.length →
          breakoutCond d df level is_resistance j = false)) ∧
    (check_breakout d df level is_resistance = none ↔
      ∀ i, df.length - d.max_retest_candles < i → i < df.length →
        breakoutCond d df level is_resistance i = false) ∧
    (∀ i, 0 < i → i < df.length →
      (breakoutCond d df level is_resistance i = true ↔
        specBreakoutCond d df level is_resistance i)) := by
  refine ⟨?_, ?_, ?_⟩
  · intro i
    unfold check_breakout
    rw [find?_reverse_range']
    constructor
    · rintro ⟨h1, h2, h3, h4⟩
      exact ⟨by omega, by omega, h3, fun j hj1 hj2 => h4 j hj1 (by omega)⟩
    · rintro ⟨h1, h2, h3, h4⟩
      exact ⟨by omega, by omega, h3, fun j hj1 hj2 => h4 j hj1 (by omega)⟩
  · unfold check_breakout
    rw [List.find?_eq_none]
    constructor
    · intro h i hi1 hi2
      have hmem : i ∈ (List.range' (df.length - d.max_retest_candles + 1)
          (df.length - 1 - (df.length - d.max_retest_candles))).reverse := by
        rw [List.mem_reverse, List.mem_range'_1]
        omega
      have := h i hmem
      simpa using this
    · intro h x hx
      rw [List.mem_reverse, List.mem_range'_1] at hx
      simp only [Bool.not_eq_true]
      exact h x (by omega) (by omega)
  · intro i hi1 hi2
    have hlen : 0 < (prevCloses (df.map Candle.close) i).length := by
      unfold prevCloses
      rw [List.length_drop, List.length_take, List.length_map]
      omega
    cases is_resistance
    · simp [breakoutCond, specBreakoutCond, hlen]
    · simp [breakoutCond, specBreakoutCond, hlen]

/-- The candle row used by the C3 counterexample (all price columns set
to the same value; only closes matter to `check_breakout`). -/
def flatCandle (q : ℚ) : Candle := ⟨0, q, q, q, q, q⟩

/-- Detector configuration of the C3 counterexample:
`max_retest_candles = 3`, `min_breakout_pct = 0.5`. -/
def ceDetector : Detector := ⟨10, 3/10, 2, 5/10, 5/10, 3⟩

/-- Candle series of the C3 counterexample: closes 90, 102, 90, 90.  The
only breakout of the resistance level 100 (close 102 > 100.5 with the
preceding mean 90 < 100) sits at index 1 = `len - max_retest_candles`,
inside the last `max_retest_candles` candles but outside the scanned
range, so the code returns `None` where the claim demands index 1. -/
def ceDf : List Candle :=
  [flatCandle 90, flatCandle 102, flatCandle 90, flatCandle 90]

theorem claim_C3_counterexample :
    check_breakout ceDetector ceDf 100 true = none ∧
    specCheckBreakout ceDetector ceDf 100 true = some 1 := by
  constructor
  · show (List.range' 2 2).reverse.find? (breakoutCond ceDetector ceDf 100 true)
      = none
    rw [List.find?_eq_none]
    intro x hx
    rw [List.mem_reverse, List.mem_range'_1] at hx
    have hx23 : x = 2 ∨ x = 3 := by omega
    rcases hx23 with rfl | rfl <;>
      simp [breakoutCond, prevCloses, ceDf, flatCandle, ceDetector] <;>
      norm_num
  · show (List.range' 1 3).reverse.find?
      (fun i => decide (specBreakoutCond ceDetector ceDf 100 true i)) = some 1
    have h3 : decide (specBreakoutCond ceDetector ceDf 100 true 3) = false := by
      simp [specBreakoutCond, prevCloses, ceDf, flatCandle, ceDetector]
      norm_num
    have h2 : decide (specBreakoutCond ceDetector ceDf 100 true 2) = false := by
      simp [specBreakoutCond, prevCloses, ceDf, flatCandle, ceDetector]
      norm_num
    have h1 : decide (specBreakoutCond ceDetector ceDf 100 true 1) = true := by
      simp [specBreakoutCond, prevCloses, ceDf, flatCandle, ceDetector]
      norm_num
    have hrev : (List.range' 1 3).reverse = [3, 2, 1] := rfl
    rw [hrev]
    simp [List.find?_cons, h3, h2, h1]

/-- Candle series of the C3 witness: closes 90, 90, 102; the breakout of
level 100 sits on the newest candle, index 2. -/
def wdf3 : List Candle := [flatCandle 90, flatCandle 90, flatCandle 102]

theorem claim_C3_witness :
    check_breakout (create_detector "medium") wdf3 100 true = some 2 :=
  ((claim_C3 (create_detector "medium") wdf3 100 true).1 2).mpr
    ⟨by decide, by decide,
      by simp [breakoutCond, prevCloses, wdf3, flatCandle, create_detector]
         norm_num,
      fun j hj1 hj2 => absurd (show j < 3 from hj2) (by omega)⟩

/-- The levels produced by `cluster_levels` are sorted ascending by
price (python's final `sorted(levels, key=lambda x: x.price)`). -/
lemma cluster_levels_price_sorted (tol : ℚ) (min_touches : ℕ)
    (pivots : List (ℚ × ℤ)) :
    ((cluster_levels tol min_touches pivots).map Level.price).Pairwise
      (· ≤ ·) :=
  List.pairwise_map.mpr
    (List.sorted_insertionSort Level.priceLE (clusterGo tol min_touches pivots))

/-- Lifting a pairwise relation on prices to the zipped pivot list. -/
lemma pairwise_zip_left {R : ℚ → ℚ → Prop} :
    ∀ (cs : List ℚ) (ts : List ℤ), cs.Pairwise R →
      (cs.zip ts).Pairwise fun a b => R a.1 b.1
  | [], _, _ => by simp
  | _ :: _, [], _ => by simp
  | p :: cs, t :: ts, h => by
    rw [List.zip_cons_cons, List.pairwise_cons]
    rw [List.pairwise_cons] at h
    exact ⟨fun x hx => h.1 x.1 (List.of_mem_zip hx).1,
      pairwise_zip_left cs ts h.2⟩

/-- With tolerance 0 and `min_touches` 1, clustering a strictly
increasing list of positive prices emits one singleton level per
pivot, in order. -/
lemma clusterGo_singletons :
    ∀ (cs : List ℚ) (ts : List ℤ), (∀ p ∈ cs, 0 < p) →
      cs.Pairwise (· < ·) →
      clusterGo 0 1 (cs.zip ts) =
        (cs.zip ts).map fun pt => ⟨pt.1, 1, pt.2, pt.2, false, none, none⟩
  | [], ts, _, _ => by simp [clusterGo]
  | p :: cs, [], _, _ => by simp [clusterGo]
  | p :: cs, t :: ts, hpos, hsort => by
    have hp : 0 < p := hpos p (List.mem_cons_self p cs)
    have hne : ∀ q ∈ cs.zip ts, ¬ (pctDiff p q.1 ≤ 0) := by
      intro q hq
      have hlt : p < q.1 :=
        (List.pairwise_cons.mp hsort).1 q.1 (List.of_mem_zip hq).1
      have habs : 0 < |q.1 - p| := abs_pos.mpr (sub_ne_zero.mpr (ne_of_gt hlt))
      have : 0 < pctDiff p q.1 :=
        mul_pos (div_pos habs hp) (by norm_num)
      exact not_le.mpr this
    have hin : (cs.zip ts).filter (fun q => decide (pctDiff p q.1 ≤ 0)) = [] :=
      List.filter_eq_nil_iff.mpr fun q hq => by
        simpa using hne q hq
    have hout :
        (cs.zip ts).filter (fun q => !decide (pctDiff p q.1 ≤ 0)) = cs.zip ts :=
      List.filter_eq_self.mpr fun q hq => by
        simpa using hne q hq
    rw [List.zip_cons_cons, clusterGo, hin, hout]
    rw [if_pos (by simp)]
    rw [clusterGo_singletons cs ts
      (fun x hx => hpos x (List.mem_cons_of_mem p hx))
      (List.pairwise_cons.mp hsort).2]
    simp [mkLevel]

/-- Claim C4, corrected: re-clustering the centroid prices of levels
produced by `cluster_levels` with the tolerance set to zero reproduces
the centroid prices only when every cluster is emitted
(`min_touches = 1`); the reproduced levels then carry strength 1 each,
not the original strengths, and with the detector defaults
(`min_touches = 2`, see the counterexample) re-clustering distinct
centroids produces no levels at all.  Positivity and distinctness of the
centroids are assumed; `ts` supplies the timestamps of the re-clustering
pass. -/
theorem claim_C4 (tol : ℚ) (min_touches : ℕ) (pivots : List (ℚ × ℤ))
    (ts : List ℤ)
    (hpos : ∀ p ∈ (cluster_levels tol min_touches pivots).map Level.price,
      0 < p)
    (hdist : ((cluster_levels tol min_touches pivots).map Level.price).Pairwise
      (· ≠ ·))
    (hlen : (cluster_levels tol min_touches pivots).length ≤ ts.length) :
    ((cluster_levels 0 1
        (((cluster_levels tol min_touches pivots).map Level.price).zip
          ts)).map Level.price
      = (cluster_levels tol min_touches pivots).map Level.price) ∧
    ∀ lv ∈ cluster_levels 0 1
        (((cluster_levels tol min_touches pivots).map Level.price).zip ts),
      lv.strength = 1 := by
  have hsorted :
      ((cluster_levels tol min_touches pivots).map Level.price).Pairwise
        (· < ·) :=
    ((cluster_levels_price_sorted tol min_touches pivots).and hdist).imp
      fun h => lt_of_le_of_ne h.1 h.2
  have hlen2 :
      ((cluster_levels tol min_touches pivots).map Level.price).length ≤
        ts.length := by
    rw [List.length_map]
    exact hlen
  have hrw : cluster_levels 0 1
      (((cluster_levels tol min_touches pivots).map Level.price).zip ts) =
      (((cluster_levels tol min_touches pivots).map Level.price).zip ts).map
        fun pt => ⟨pt.1, 1, pt.2, pt.2, false, none, none⟩ := by
    rw [cluster_levels,
      clusterGo_singletons _ ts hpos hsorted]
    apply List.Sorted.insertionSort_eq
    have := pairwise_zip_left
      ((cluster_levels tol min_touches pivots).map Level.price) ts hsorted
    refine List.pairwise_map.mpr (this.imp fun h => ?_)
    exact le_of_lt h
  constructor
  · rw [hrw, List.map_map]
    have : (Level.price ∘ fun pt : ℚ × ℤ =>
        (⟨pt.1, 1, pt.2, pt.2, false, none, none⟩ : Level)) = Prod.fst := rfl
    rw [this]
    exact List.map_fst_zip _ ts hlen2
  · intro lv hlv
    rw [hrw] at hlv
    obtain ⟨pt, -, rfl⟩ := List.mem_map.mp hlv
    rfl

/-- Concrete evaluation shared by the C4 counterexample and witness: the
two equal pivot prices 100 cluster (under the default medium tolerance
0.3%, `min_touches` 2) into a single level with centroid 100 and
strength 2. -/
lemma cluster_levels_ex_eval :
    cluster_levels (3/10) 2 [((100:ℚ), (0:ℤ)), (100, 1)] =
      [⟨100, 2, 0, 1, false, none, none⟩] := by
  rw [cluster_levels, clusterGo]
  norm_num [pctDiff, mkLevel, clusterGo]

theorem claim_C4_counterexample :
    cluster_levels (3/10) 2 [((100:ℚ), (0:ℤ)), (100, 1)] =
      [⟨100, 2, 0, 1, false, none, none⟩] ∧
    cluster_levels 0 2 [((100:ℚ), (0:ℤ))] = [] := by
  refine ⟨cluster_levels_ex_eval, ?_⟩
  rw [cluster_levels, clusterGo]
  norm_num [clusterGo]

theorem claim_C4_witness :
    (cluster_levels 0 1
        (((cluster_levels (3/10) 2 [((100:ℚ), (0:ℤ)), (100, 1)]).map
          Level.price).zip [(5:ℤ)])).map Level.price
      = (cluster_levels (3/10) 2 [((100:ℚ), (0:ℤ)), (100, 1)]).map
          Level.price :=
  (claim_C4 (3/10) 2 [((100:ℚ), (0:ℤ)), (100, 1)] [(5:ℤ)]
    (by rw [cluster_levels_ex_eval]; norm_num)
    (by rw [cluster_levels_ex_eval]; simp)
    (by rw [cluster_levels_ex_eval]; simp)).1

/-- Claim C5: `_signal_exists(user, symbol, timeframe, pattern_type,
level_price)` is true iff some persisted signal with the same key has
`level_price` within the ±0.5% band around the candidate price and
`created_at` no older than 24 hours before `now`; a candidate just
outside the price band or the time window therefore yields false. -/
theorem claim_C5 (store : List ScanResultRec) (now : ℚ) (user_id : ℕ)
    (symbol timeframe pattern_type : String) (level_price : ℚ) :
    signal_exists store now user_id symbol timeframe pattern_type
        level_price = true ↔
      ∃ r ∈ store, r.user_id = user_id ∧ r.symbol = symbol ∧
        r.timeframe = timeframe ∧ r.pattern_type = pattern_type ∧
        level_price * (1 - PRICE_TOLERANCE) ≤ r.level_price ∧
        r.level_price ≤ level_price * (1 + PRICE_TOLERANCE) ∧
        now - DUPLICATE_WINDOW_HOURS ≤ r.created_at := by
  simp only [signal_exists, decide_eq_true_eq,
    List.length_pos_iff_exists_mem, List.mem_filter]

def exStoredSignal : ScanResultRec :=
  ⟨1, 1, "BTCUSDT", "1h", "bullish_retest", 100, 101, 1/5, true, 50⟩

theorem claim_C5_witness :
    signal_exists [exStoredSignal] 60 1 "BTCUSDT" "1h" "bullish_retest"
      100 = true :=
  (claim_C5 [exStoredSignal] 60 1 "BTCUSDT" "1h" "bullish_retest" 100).mpr
    ⟨exStoredSignal, List.mem_singleton.mpr rfl, rfl, rfl, rfl, rfl,
      by norm_num [exStoredSignal, PRICE_TOLERANCE],
      by norm_num [exStoredSignal, PRICE_TOLERANCE],
      by norm_num [exStoredSignal, DUPLICATE_WINDOW_HOURS]⟩

/-- The records `clear_duplicate_signals` keeps, computed structurally:
walking the time-ordered list, a record is kept exactly when its dedup
key has not been seen before. -/
def keepFirsts (seen : List (String × String × String × ℚ)) :
    List ScanResultRec → List ScanResultRec
  | [] => []
  | r :: rest =>
    if dupKey r ∈ seen then keepFirsts seen rest
    else r :: keepFirsts (dupKey r :: seen) rest

/-- Every id marked for deletion belongs to the walked list. -/
lemma findDups_subset :
    ∀ (l : List ScanResultRec) (seen) (x), x ∈ findDups seen l →
      x ∈ l.map ScanResultRec.id
  | [], _, x, h => by simp [findDups] at h
  | r :: rest, seen, x, h => by
    by_cases hk : dupKey r ∈ seen
    · rw [findDups, if_pos hk] at h
      rcases List.mem_cons.mp h with rfl | h2
      · simp
      · simp only [List.map_cons, List.mem_cons]
        exact Or.inr (findDups_subset rest seen x h2)
    · rw [findDups, if_neg hk] at h
      simp only [List.map_cons, List.mem_cons]
      exact Or.inr (findDups_subset rest _ x h)

/-- The marked ids and the kept records partition the walked list. -/
lemma findDups_keepFirsts_length :
    ∀ (l : List ScanResultRec) (seen),
      (findDups seen l).length + (keepFirsts seen l).length = l.length
  | [], _ => rfl
  | r :: rest, seen => by
    by_cases hk : dupKey r ∈ seen
    · rw [findDups, if_pos hk, keepFirsts, if_pos hk]
      have := findDups_keepFirsts_length rest seen
      simp only [List.length_cons]
      omega
    · rw [findDups, if_neg hk, keepFirsts, if_neg hk]
      have := findDups_keepFirsts_length rest (dupKey r :: seen)
      simp only [List.length_cons]
      omega

/-- When ids are unique, deleting the marked ids from the walked list
leaves exactly the structurally kept records. -/
lemma filter_not_findDups_eq_keepFirsts :
    ∀ (l : List ScanResultRec) (seen),
      (l.map ScanResultRec.id).Nodup →
      (l.filter fun s => !decide (s.id ∈ findDups seen l)) = keepFirsts seen l
  | [], _, _ => rfl
  | r :: rest, seen, hnd => by
    have hnd1 : r.id ∉ rest.map ScanResultRec.id := by
      simp only [List.map_cons, List.nodup_cons] at hnd
      exact hnd.1
    have hnd2 : (rest.map ScanResultRec.id).Nodup := by
      simp only [List.map_cons, List.nodup_cons] at hnd
      exact hnd.2
    by_cases hk : dupKey r ∈ seen
    · rw [findDups, if_pos hk, keepFirsts, if_pos hk]
      rw [List.filter_cons]
      have hhead : (!decide (r.id ∈ r.id :: findDups seen rest)) = false := by
        simp
      rw [hhead]
      simp only [Bool.false_eq_true, if_false]
      have htail :
          (rest.filter fun s => !decide (s.id ∈ r.id :: findDups seen rest)) =
            rest.filter fun s => !decide (s.id ∈ findDups seen rest) := by
        apply List.filter_congr
        intro s hs
        have hne : s.id ≠ r.id := fun he =>
          hnd1 (he ▸ List.mem_map_of_mem ScanResultRec.id hs)
        simp [List.mem_cons, hne]
      rw [htail]
      exact filter_not_findDups_eq_keepFirsts rest seen hnd2
    · rw [findDups, if_neg hk, keepFirsts, if_neg hk]
      rw [List.filter_cons]
      have hhead : (!decide (r.id ∈ findDups (dupKey r :: seen) rest)) = true := by
        have : r.id ∉ findDups (dupKey r :: seen) rest := fun h =>
          hnd1 (findDups_subset rest _ _ h)
        simpa using this
      rw [hhead]
      simp only [if_true]
      rw [filter_not_findDups_eq_keepFirsts rest _ hnd2]

/-- A kept record's key was not previously seen. -/
lemma keepFirsts_key_not_seen :
    ∀ (l : List ScanResultRec) (seen) (r), r ∈ keepFirsts seen l →
      dupKey r ∉ seen
  | [], _, r, h => by simp [keepFirsts] at h
  | x :: rest, seen, r, h => by
    by_cases hk : dupKey x ∈ seen
    · rw [keepFirsts, if_pos hk] at h
      exact keepFirsts_key_not_seen rest seen r h
    · rw [keepFirsts, if_neg hk] at h
      rcases List.mem_cons.mp h with rfl | h2
      · exact hk
      · intro hc
        exact keepFirsts_key_not_seen rest _ r h2 (List.mem_cons_of_mem _ hc)

/-- No kept record carries an already-seen key. -/
lemma keepFirsts_count_zero (l : List ScanResultRec) (seen k)
    (hk : k ∈ seen) :
    ((keepFirsts seen l).filter fun r => decide (dupKey r = k)).length = 0 := by
  rw [List.length_eq_zero, List.filter_eq_nil_iff]
  intro r hr
  have := keepFirsts_key_not_seen l seen r hr
  simp only [decide_eq_true_eq]
  intro he
  exact this (he ▸ hk)

/-- Exactly one record is kept for every fresh key occurring in the
walked list. -/
lemma keepFirsts_count_one :
    ∀ (l : List ScanResultRec) (seen) (k), k ∉ seen → k ∈ l.map dupKey →
      ((keepFirsts seen l).filter fun r => decide (dupKey r = k)).length = 1
  | [], _, k, _, hmem => by simp at hmem
  | x :: rest, seen, k, hk, hmem => by
    have hmem' : k = dupKey x ∨ k ∈ rest.map dupKey := by
      simpa using hmem
    by_cases hkx : dupKey x ∈ seen
    · rw [keepFirsts, if_pos hkx]
      rcases hmem' with he | h2
      · exact absurd (he ▸ hkx) hk
      · exact keepFirsts_count_one rest seen k hk h2
    · rw [keepFirsts, if_neg hkx]
      rcases eq_or_ne (dupKey x) k with hek | hek
      · subst hek
        have h0 := keepFirsts_count_zero rest (dupKey x :: seen) (dupKey x)
          (List.mem_cons_self (dupKey x) seen)
        simp [List.filter_cons, h0]
      · have hmem2 : k ∈ rest.map dupKey := by
          rcases hmem' with he | h2
          · exact absurd he.symm hek
          · exact h2
        have hnotin : k ∉ dupKey x :: seen := by
          simp only [List.mem_cons]
          rintro (he | he)
          · exact hek he.symm
          · exact hk he
        have := keepFirsts_count_one rest (dupKey x :: seen) k hnotin hmem2
        simp [List.filter_cons, hek, this]

/-- On a list sorted ascending by creation time, every kept record is no
later than any record of its key group. -/
lemma keepFirsts_earliest :
    ∀ (l : List ScanResultRec) (seen),
      l.Pairwise ScanResultRec.createdLE →
      ∀ r ∈ keepFirsts seen l, ∀ s ∈ l, dupKey s = dupKey r →
        r.created_at ≤ s.created_at
  | [], _, _, r, hr => by simp [keepFirsts] at hr
  | x :: rest, seen, hsort, r, hr => by
    have hs := List.pairwise_cons.mp hsort
    by_cases hkx : dupKey x ∈ seen
    · rw [keepFirsts, if_pos hkx] at hr
      intro s hsm he
      rcases List.mem_cons.mp hsm with rfl | h2
      · have := keepFirsts_key_not_seen rest seen r hr
        exact absurd (he ▸ hkx) this
      · exact keepFirsts_earliest rest seen hs.2 r hr s h2 he
    · rw [keepFirsts, if_neg hkx] at hr
      rcases List.mem_cons.mp hr with rfl | hr2
      · intro s hsm he
        rcases List.mem_cons.mp hsm with rfl | h2
        · exact le_refl _
        · exact hs.1 s h2
      · intro s hsm he
        rcases List.mem_cons.mp hsm with rfl | h2
        · have hno := keepFirsts_key_not_seen rest _ r hr2
          exact absurd (he ▸ List.mem_cons_self (dupKey s) seen) hno
        · exact keepFirsts_earliest rest _ hs.2 r hr2 s h2 he

/-- Claim C6: for every user's stored signals (with unique primary
keys), `clear_duplicate_signals` retains exactly one record per
(symbol, timeframe, pattern_type, round(level_price, 2)) group, that
record is an earliest-created one of its group, no time window is
involved, and the returned count is the number of records deleted
(deleted + retained = total for that user). -/
theorem claim_C6 (store : List ScanResultRec) (user_id : ℕ)
    (hid : (store.map ScanResultRec.id).Nodup) :
    (∀ k ∈ (store.filter fun r => decide (r.user_id = user_id)).map dupKey,
      (((clear_duplicate_signals store user_id).1.filter
          fun r => decide (r.user_id = user_id)).filter
          fun r => decide (dupKey r = k)).length = 1) ∧
    (∀ r ∈ (clear_duplicate_signals store user_id).1.filter
        fun r => decide (r.user_id = user_id),
      ∀ s ∈ store.filter fun r => decide (r.user_id = user_id),
        dupKey s = dupKey r → r.created_at ≤ s.created_at) ∧
    (clear_duplicate_signals store user_id).2 +
        ((clear_duplicate_signals store user_id).1.filter
          fun r => decide (r.user_id = user_id)).length =
      (store.filter fun r => decide (r.user_id = user_id)).length := by
  have hperm :
      ((store.filter fun r => decide (r.user_id = user_id)).insertionSort
          ScanResultRec.createdLE).Perm
        (store.filter fun r => decide (r.user_id = user_id)) :=
    List.perm_insertionSort _ _
  set urecs := store.filter fun r => decide (r.user_id = user_id) with hurecs
  set l := urecs.insertionSort ScanResultRec.createdLE with hldef
  have hlnd : (l.map ScanResultRec.id).Nodup := by
    have h1 : (urecs.map ScanResultRec.id).Nodup :=
      List.Nodup.sublist ((List.filter_sublist store).map ScanResultRec.id) hid
    exact ((hperm.map ScanResultRec.id).nodup_iff).mpr h1
  have hfst : (clear_duplicate_signals store user_id).1 =
      store.filter fun r => !decide (r.id ∈ findDups [] l) := rfl
  have hsnd : (clear_duplicate_signals store user_id).2 =
      (findDups [] l).length := rfl
  have hkept : (clear_duplicate_signals store user_id).1.filter
      (fun r => decide (r.user_id = user_id)) =
      urecs.filter fun r => !decide (r.id ∈ findDups [] l) := by
    rw [hfst, hurecs, List.filter_filter, List.filter_filter]
    apply List.filter_congr
    intro x hx
    exact Bool.and_comm _ _
  have hbridge : l.filter (fun s => !decide (s.id ∈ findDups [] l)) =
      keepFirsts [] l :=
    filter_not_findDups_eq_keepFirsts l [] hlnd
  have hkp : (urecs.filter fun s => !decide (s.id ∈ findDups [] l)).Perm
      (keepFirsts [] l) := by
    rw [← hbridge]
    exact (hperm.symm).filter _
  have hsort : l.Pairwise ScanResultRec.createdLE :=
    List.sorted_insertionSort _ _
  refine ⟨?_, ?_, ?_⟩
  · intro k hk
    rw [hkept, (hkp.filter fun r => decide (dupKey r = k)).length_eq]
    exact keepFirsts_count_one l [] k (by simp)
      (((hperm.map dupKey).mem_iff).mpr hk)
  · intro r hr s hsm he
    rw [hkept] at hr
    exact keepFirsts_earliest l [] hsort r (hkp.mem_iff.mp hr) s
      (hperm.mem_iff.mpr hsm) he
  · rw [hsnd, hkept, hkp.length_eq]
    have h1 := findDups_keepFirsts_length l []
    have h2 : l.length = urecs.length := hperm.length_eq
    omega

/-- Store used by the C6 witness: records 1 and 2 are duplicates of the
same level for user 1 (record 1 older), record 3 is a different
timeframe, record 4 belongs to another user. -/
def exDupStore : List ScanResultRec :=
  [⟨1, 1, "BTCUSDT", "1h", "bullish_retest", 100, 101, 1/5, true, 10⟩,
   ⟨2, 1, "BTCUSDT", "1h", "bullish_retest", 100, 102, 1/5, true, 20⟩,
   ⟨3, 1, "BTCUSDT", "4h", "bullish_retest", 100, 101, 1/5, true, 5⟩,
   ⟨4, 2, "BTCUSDT", "1h", "bullish_retest", 100, 101, 1/5, true, 15⟩]

theorem claim_C6_witness :
    (clear_duplicate_signals exDupStore 1).2 +
        ((clear_duplicate_signals exDupStore 1).1.filter
          fun r => decide (r.user_id = 1)).length =
      (exDupStore.filter fun r => decide (r.user_id = 1)).length :=
  (claim_C6 exDupStore 1 (by decide)).2.2

/-- Claim C7: `get_new_signals(user)` returns the complete ordered queue
of that user (empty if none), leaves that user's queue empty, leaves
every other user's queue unchanged, and an immediately repeated call
returns the empty list. -/
theorem claim_C7 {α : Type} (q : SignalQueue α) (user_id : ℕ) :
    (get_new_signals q user_id).1 = q user_id ∧
    (get_new_signals q user_id).2 user_id = [] ∧
    (∀ v, v ≠ user_id → (get_new_signals q user_id).2 v = q v) ∧
    (get_new_signals ((get_new_signals q user_id).2) user_id).1 = [] := by
  refine ⟨rfl, by simp [get_new_signals], fun v hv => ?_,
    by simp [get_new_signals]⟩
  simp [get_new_signals, hv]

def exQueue : SignalQueue ℕ := fun u => if u = 3 then [7, 8] else []

theorem claim_C7_witness :
    (get_new_signals exQueue 3).1 = [7, 8] ∧
    (get_new_signals ((get_new_signals exQueue 3).2) 3).1 = [] ∧
    (get_new_signals exQueue 3).2 5 = exQueue 5 :=
  ⟨((claim_C7 exQueue 3).1).trans rfl, (claim_C7 exQueue 3).2.2.2,
    (claim_C7 exQueue 3).2.2.1 5 (by decide)⟩

/-- Claim C8: the orchestrator is a two-state machine.  Starting from a
stopped state, `start` (through the `/auto/start` endpoint) switches to
running with the interval clamped into `[1, 60]`; starting while
running is a no-op; `stop` always results in the stopped state; and the
Scenario C run `start(5)`, `status()`, `stop()`, `status()` from the
initial state reports running with interval 5, then stopped. -/
theorem claim_C8 (s : SchedulerState) (i : ℤ) :
    (s.is_running = false →
      (start_auto_scanner s i).is_running = true ∧
      (start_auto_scanner s i).interval_minutes = max 1 (min 60 i) ∧
      1 ≤ (start_auto_scanner s i).interval_minutes ∧
      (start_auto_scanner s i).interval_minutes ≤ 60) ∧
    (s.is_running = true → start_auto_scanner s i = s) ∧
    (schedStop s).is_running = false ∧
    schedStatus (start_auto_scanner schedInit 5) = (true, 5, none) ∧
    (schedStatus (schedStop (start_auto_scanner schedInit 5))).1 = false := by
  refine ⟨?_, ?_, ?_, ?_, ?_⟩
  · intro h
    have hs : start_auto_scanner s i =
        { s with interval_minutes := max 1 (min 60 i), is_running := true } := by
      simp [start_auto_scanner, schedStart, h]
    rw [hs]
    refine ⟨rfl, rfl, ?_, ?_⟩ <;> simp
  · intro h
    simp [start_auto_scanner, schedStart, h]
  · cases h : s.is_running <;> simp [schedStop, h]
  · have h5 : max 1 (min 60 (5 : ℤ)) = 5 := by omega
    simp [start_auto_scanner, schedStart, schedInit, schedStatus, h5]
  · simp [start_auto_scanner, schedStart, schedInit, schedStatus, schedStop]

theorem claim_C8_witness :
    (start_auto_scanner schedInit 500).is_running = true ∧
    (start_auto_scanner schedInit 500).interval_minutes = 60 ∧
    (start_auto_scanner ⟨true, 7, none⟩ 9 : SchedulerState) =
      ⟨true, 7, none⟩ := by
  refine ⟨((claim_C8 schedInit 500).1 rfl).1, ?_,
    (claim_C8 ⟨true, 7, none⟩ 9).2.1 rfl⟩
  have h := ((claim_C8 schedInit 500).1 rfl).2.1
  rw [h]
  decide

/-- Claim C9: `check_retest(df, level, breakout_idx, is_bullish)` returns
`False` whenever `breakout_idx ≥ len(df) - 1` (over `ℕ`:
`len(df) - 1 ≤ breakout_idx`); in particular a breakout located on the
newest candle (index `len(df) - 1`) can never yield a retest signal. -/
theorem claim_C9 (d : Detector) (df : List Candle) (level : ℚ)
    (breakout_idx : ℕ) (is_bullish : Bool)
    (h : df.length - 1 ≤ breakout_idx) :
    check_retest d df level breakout_idx is_bullish = false := by
  unfold check_retest
  rw [if_pos (by omega)]

theorem claim_C9_witness :
    check_retest (create_detector "medium")
      [⟨0, 99, 101, 98, 100, 3⟩, ⟨1, 100, 103, 99, 102, 3⟩] 100 1 true
      = false :=
  claim_C9 (create_detector "medium")
    [⟨0, 99, 101, 98, 100, 3⟩, ⟨1, 100, 103, 99, 102, 3⟩] 100 1 true
    (by decide)

/-- Claim C10: `run_scan` for a user whose filtered active watchlist is
empty returns the empty result list and leaves the store untouched — no
`ScanResult` row and no `ScanExecution` row is written. -/
theorem claim_C10 (db : DB) (provider : String → String → Option (List Candle))
    (now : ℚ) (user_id : ℕ) (symbols timeframes : Option (List String))
    (sensitivity : String)
    (h : activeWatchlist db user_id symbols = []) :
    run_scan db provider now user_id symbols timeframes sensitivity
      = ([], db) := by
  unfold run_scan
  rw [h]
  rfl

def exEmptyDB : DB :=
  { watchlist := [⟨2, "ETHUSDT", ["1h"], true⟩, ⟨1, "BTCUSDT", ["4h"], false⟩]
    scan_results := [exStoredSignal]
    executions := []
    next_id := 2 }

theorem claim_C10_witness :
    run_scan exEmptyDB (fun _ _ => none) 60 1 none none "medium"
      = ([], exEmptyDB) :=
  claim_C10 exEmptyDB (fun _ _ => none) 60 1 none none "medium" (by decide)

end TradingScanner
